import Mathlib

/-!
Verification of the carbon-footprint / sustainability report script.

The script is embedded shallowly: Python strings become `List Char`,
floats become `ℚ`, AWS query outcomes become `Except` values carrying the
error code / message the script inspects, and every printed line becomes a
constructor of an event type `Ev`, so that claims about which lines are
rendered (and in which order) are statements about lists of events.
-/

namespace Carbon

/-- Python strings are modelled as lists of characters. -/
abbrev Str := List Char

/-! ### String helpers (Python primitives used by the script) -/

/-- Python `s.split(sep)` for a one-character separator: the list of chunks
between occurrences of `sep` (`"".split(".") == [""]`). -/
def splitOnChar (sep : Char) : Str → List Str
  | [] => [[]]
  | c :: rest =>
    let r := splitOnChar sep rest
    if c = sep then [] :: r
    else (c :: r.headD []) :: r.tail

/-- Python `s.endswith(suf)`. -/
def strEndsWith (s suf : Str) : Bool :=
  decide (s.drop (s.length - suf.length) = suf)

/-- Whether `needle` is a leading block of `hay` (used by `hasSub`). -/
def matchesAt : Str → Str → Bool
  | [], _ => true
  | _ :: _, [] => false
  | a :: as, b :: bs => a = b && matchesAt as bs

/-- Python `needle in hay` (contiguous substring containment). -/
def hasSub (needle : Str) : Str → Bool
  | [] => matchesAt needle []
  | c :: rest => matchesAt needle (c :: rest) || hasSub needle rest

/-! ### Architecture classification (`check_ec2_utilization`, lines 129–130)

`family = instance_type.split(".")[0]`
`is_graviton = family.endswith("g") or "g" in family[1:]` -/

/-- `instance_type.split(".")[0]`. -/
def familyOf (instance_type : Str) : Str :=
  (splitOnChar '.' instance_type).headD []

/-- `family.endswith("g") or "g" in family[1:]`. -/
def is_graviton (family : Str) : Bool :=
  strEndsWith family "g".toList || hasSub "g".toList (family.drop 1)

/-! ### Data model of the query results the script consumes -/

/-- A `botocore` client error, as far as the script inspects it:
`e.response["Error"]["Code"]` and `e.response["Error"]["Message"]`. -/
structure ClientErr where
  code : Str
  message : Str
deriving DecidableEq

/-- Outcome of the per-instance `get_metric_statistics` call: the list of
daily `Average` datapoints, or a client error. -/
abbrev MetricResult := Except ClientErr (List ℚ)

/-- A running EC2 instance as the script reads it: id, type and tags. -/
structure InstRecord where
  instanceId : Str
  instanceType : Str
  tags : List (Str × Str)
deriving DecidableEq

/-- One `recommendationSummaries` element: resource type plus
(`name`, `value`) finding summaries. -/
structure OptSummary where
  resourceType : Str
  summaries : List (Str × ℚ)
deriving DecidableEq

/-- Record pushed onto `low_utilization` (lines 180–185). -/
structure LowRec where
  id : Str
  ty : Str
  name : Str
  avg_cpu : ℚ
deriving DecidableEq

/-! ### Rendered lines, one constructor per distinct `print` of interest -/

/-- The printed report, abstracted: each constructor is one of the lines
(or fixed line blocks) the script emits. -/
inductive Ev where
  | programHeader
  | sessionErrNotice
  | utilBanner
  | noInstances
  | instanceCountLine (n : Nat)
  | cwPermissionNotice
  | cwFailNotice (code : Str)
  | instRow (id ty : Str) (arm : Bool)
  | instName (name : Str)
  | instCpu (avg : Option ℚ)
  | lowUtilWarn
  | gravitonCountLine (n : Nat)
  | x86CountLine (n : Nat)
  | ratioLine (r : ℚ)
  | migrateToArm
  | lowUtilSummaryLine (n : Nat)
  | ec2QueryFail (msg : Str)
  | costBanner
  | costSkipped
  | noCost
  | totalLine (t : ℚ)
  | costEntry (name : Str) (cost pct : ℚ) (bar : ℤ)
  | suggestEC2
  | suggestRDS
  | suggestS3
  | suggestLambda
  | suggestDynamoDB
  | costQueryFail (msg : Str)
  | optBanner
  | optNotEnabled
  | optNoData
  | optResourceType (ty : Str)
  | optFinding (label : Str) (value : ℚ)
  | optQueryFail (msg : Str)
  | checklistSec
  | footer
deriving DecidableEq

/-! ### Phase 1: `check_ec2_utilization` -/

/-- `if datapoints: avg = sum/len else None`, and `None` on a client error
(lines 151–163). -/
def avg_cpu (mr : MetricResult) : Option ℚ :=
  match mr with
  | .ok datapoints =>
      if datapoints.isEmpty then none
      else some (datapoints.sum / (datapoints.length : ℚ))
  | .error _ => none

/-- The notice printed by the `except ClientError` arm of the metrics query
(lines 157–163). -/
def noticeEvents (mr : MetricResult) : List Ev :=
  match mr with
  | .ok _ => []
  | .error e =>
      if e.code = "AccessDeniedException".toList ∨ e.code = "AccessDenied".toList
      then [.cwPermissionNotice]
      else [.cwFailNotice e.code]

/-- First `Name` tag value, `""` when absent (lines 166–170). -/
def nameTagOf (tags : List (Str × Str)) : Str :=
  match tags.find? (fun t => t.1 = "Name".toList) with
  | some t => t.2
  | none => []

/-- Whether the loop classifies the instance as Graviton (lines 129–130). -/
def armOf (inst : InstRecord) : Bool :=
  is_graviton (familyOf inst.instanceType)

/-- The lines printed for one instance in the loop body (lines 138–188). -/
def instEvents (p : InstRecord × MetricResult) : List Ev :=
  noticeEvents p.2 ++
  [.instRow p.1.instanceId p.1.instanceType (armOf p.1),
   .instName (nameTagOf p.1.tags),
   .instCpu (avg_cpu p.2)] ++
  (match avg_cpu p.2 with
   | some a => if a < 5 then [.lowUtilWarn] else []
   | none => [])

/-- The record appended to `low_utilization` for one instance, when
`avg_cpu is not None and avg_cpu < 5.0` (lines 179–185). -/
def lowRecOf (p : InstRecord × MetricResult) : Option LowRec :=
  match avg_cpu p.2 with
  | some a =>
      if a < 5 then some ⟨p.1.instanceId, p.1.instanceType, nameTagOf p.1.tags, a⟩
      else none
  | none => none

/-- Accumulated state of the instance loop. -/
structure UtilAcc where
  events : List Ev
  low_utilization : List LowRec
  graviton_count : Nat
  x86_count : Nat
deriving DecidableEq

/-- The instance loop (lines 123–188): each instance is paired with the
outcome of its own metrics query. -/
def utilLoop : List (InstRecord × MetricResult) → UtilAcc
  | [] => ⟨[], [], 0, 0⟩
  | p :: rest =>
      let r := utilLoop rest
      ⟨instEvents p ++ r.events,
       (lowRecOf p).toList ++ r.low_utilization,
       (if armOf p.1 then 1 else 0) + r.graviton_count,
       (if armOf p.1 then 0 else 1) + r.x86_count⟩

/-- The `--- 요약 ---` block (lines 191–202). -/
def summaryEvents (g x : Nat) (lows : List LowRec) : List Ev :=
  [.gravitonCountLine g, .x86CountLine x] ++
  (if g + x > 0 then
      [.ratioLine ((g : ℚ) / ((g : ℚ) + (x : ℚ)) * 100)] ++
      (if (g : ℚ) / ((g : ℚ) + (x : ℚ)) * 100 < 50 then [.migrateToArm] else [])
    else []) ++
  (if lows.isEmpty then [] else [.lowUtilSummaryLine lows.length])

/-- `check_ec2_utilization`: the input is the outcome of
`describe_instances` (running instances, each already paired with its
metrics-query outcome), the output is the section's lines plus the final
loop state. -/
def check_ec2_utilization
    (data : Except ClientErr (List (InstRecord × MetricResult))) : UtilAcc :=
  match data with
  | .error e => ⟨[.utilBanner, .ec2QueryFail e.message], [], 0, 0⟩
  | .ok instances =>
      if instances.isEmpty then ⟨[.utilBanner, .noInstances], [], 0, 0⟩
      else
        let r := utilLoop instances
        ⟨[.utilBanner, .instanceCountLine instances.length] ++ r.events ++
           summaryEvents r.graviton_count r.x86_count r.low_utilization,
         r.low_utilization, r.graviton_count, r.x86_count⟩

/-! ### Phase 2: `check_cost_by_service` -/

/-- The collection loop (lines 237–243): keep groups with `cost > 0.01`,
in query order, and accumulate their total. -/
def collectServices : List (Str × ℚ) → List (Str × ℚ) × ℚ
  | [] => ([], 0)
  | (name, cost) :: rest =>
      let (s, t) := collectServices rest
      if cost > 1 / 100 then ((name, cost) :: s, t + cost) else (s, t)

/-- `services.sort(key=lambda x: x[1], reverse=True)`: a stable sort by
cost descending (Python's sort is stable). -/
def sortByCostDesc (l : List (Str × ℚ)) : List (Str × ℚ) :=
  l.insertionSort (fun a b => b.2 ≤ a.2)

instance : IsTotal (Str × ℚ) (fun a b => b.2 ≤ a.2) :=
  ⟨fun a b => le_total b.2 a.2⟩

instance : IsTrans (Str × ℚ) (fun a b => b.2 ≤ a.2) :=
  ⟨fun _ _ _ h1 h2 => le_trans h2 h1⟩

/-- The rendered line for one of the top-10 entries (lines 254–258):
bar length `int(cost / total * 30)`, percentage `cost / total * 100`. -/
def costEntryEv (total : ℚ) (p : Str × ℚ) : Ev :=
  .costEntry p.1 p.2
    (if total > 0 then p.2 / total * 100 else 0)
    (if total > 0 then ⌊p.2 / total * 30⌋ else 0)

/-- The first-match `elif` chain over a service name (lines 263–272). -/
def suggestionFor (service_name : Str) : Option Ev :=
  if hasSub "EC2".toList service_name then some .suggestEC2
  else if hasSub "RDS".toList service_name then some .suggestRDS
  else if hasSub "S3".toList service_name then some .suggestS3
  else if hasSub "Lambda".toList service_name then some .suggestLambda
  else if hasSub "DynamoDB".toList service_name then some .suggestDynamoDB
  else none

/-- `check_cost_by_service`: input is the outcome of `get_cost_and_usage`,
flattened to the (service, cost) groups in query order. -/
def check_cost_by_service (data : Except ClientErr (List (Str × ℚ))) : List Ev :=
  match data with
  | .error e => [.costBanner, .costQueryFail e.message]
  | .ok groups =>
      let (services, total_cost) := collectServices groups
      if services.isEmpty then [.costBanner, .noCost]
      else
        let sorted := sortByCostDesc services
        [.costBanner, .totalLine total_cost] ++
        (sorted.take 10).map (costEntryEv total_cost) ++
        (sorted.take 5).filterMap (fun p => suggestionFor p.1)

/-! ### Phase 3: `check_compute_optimizer` -/

/-- The fixed category→label mapping (lines 314–324); an unmatched name is
its own label. -/
def findingLabel (name : Str) : Str :=
  if name = "OVER_PROVISIONED".toList then "과도 프로비저닝 (줄일 수 있음)".toList
  else if name = "UNDER_PROVISIONED".toList then "부족 프로비저닝 (늘려야 함)".toList
  else if name = "OPTIMIZED".toList then "최적화됨".toList
  else if name = "NOT_OPTIMIZED".toList then "최적화되지 않음".toList
  else name

/-- Lines for one recommendation summary (lines 305–326): resource type,
then one labelled line per finding with `value > 0`. -/
def optSummaryEvents (s : OptSummary) : List Ev :=
  .optResourceType s.resourceType ::
  s.summaries.filterMap (fun f =>
    if f.2 > 0 then some (.optFinding (findingLabel f.1) f.2) else none)

/-- `check_compute_optimizer`: input is the outcome of
`get_recommendation_summaries`. -/
def check_compute_optimizer (data : Except ClientErr (List OptSummary)) : List Ev :=
  match data with
  | .error e =>
      if e.code = "OptInRequiredException".toList then [.optBanner, .optNotEnabled]
      else [.optBanner, .optQueryFail e.message]
  | .ok summaries =>
      if summaries.isEmpty then [.optBanner, .optNoData]
      else .optBanner :: summaries.flatMap optSummaryEvents

/-! ### Phase 4 and `main` -/

/-- `create_session` outcomes the script handles: the two caught
exceptions, or a usable session. -/
inductive SessionErr where
  | noCredentials
  | profileNotFound
deriving DecidableEq

/-- All the external inputs of one run. -/
structure Env where
  sessionResult : Except SessionErr Unit
  ec2Data : Except ClientErr (List (InstRecord × MetricResult))
  costData : Except ClientErr (List (Str × ℚ))
  optimizerData : Except ClientErr (List OptSummary)
  skipCost : Bool

/-- `main` (lines 409–470): header, session acquisition (fatal on failure,
`sys.exit(1)`), then the four phases in order and the footer; the process
exit status is the second component. -/
def runMain (env : Env) : List Ev × Nat :=
  match env.sessionResult with
  | .error _ => ([.programHeader, .sessionErrNotice], 1)
  | .ok _ =>
      ((.programHeader :: (check_ec2_utilization env.ec2Data).events) ++
        (if env.skipCost then [.costSkipped] else check_cost_by_service env.costData) ++
        check_compute_optimizer env.optimizerData ++
        [.checklistSec, .footer],
       0)

/-! ### Predicates used to state properties of the rendered lines -/

/-- Lines that only the per-instance loop body can emit. -/
def isInstLine : Ev → Bool
  | .cwPermissionNotice | .cwFailNotice _ | .instRow _ _ _
  | .instName _ | .instCpu _ | .lowUtilWarn => true
  | _ => false

/-- Per-instance utilization rows. -/
def isRow : Ev → Bool
  | .instRow _ _ _ => true
  | _ => false

/-- Canned optimization suggestion lines of the cost section. -/
def isSuggestEv : Ev → Bool
  | .suggestEC2 | .suggestRDS | .suggestS3 | .suggestLambda | .suggestDynamoDB => true
  | _ => false

/-- Spec-side formulation of the guidance mapping: an explicit ordered
table of (substring matcher, suggestion) pairs, in the spec's fixed order. -/
def ruleTable : List (Str × Ev) :=
  [("EC2".toList, .suggestEC2), ("RDS".toList, .suggestRDS),
   ("S3".toList, .suggestS3), ("Lambda".toList, .suggestLambda),
   ("DynamoDB".toList, .suggestDynamoDB)]

/-- Spec-side formulation of the suggestion policy: the first rule of the
table whose matcher occurs in the service name, if any. -/
def specSuggestion (service_name : Str) : Option Ev :=
  (ruleTable.find? (fun r => hasSub r.1 service_name)).map Prod.snd

/-- Spec-side formulation of the category→label mapping as a lookup table
with verbatim fallback. -/
def specLabelTable : List (Str × Str) :=
  [("OVER_PROVISIONED".toList, "과도 프로비저닝 (줄일 수 있음)".toList),
   ("UNDER_PROVISIONED".toList, "부족 프로비저닝 (늘려야 함)".toList),
   ("OPTIMIZED".toList, "최적화됨".toList),
   ("NOT_OPTIMIZED".toList, "최적화되지 않음".toList)]

/-- Spec-side label lookup: mapped label when the category is in the
table, the category name itself otherwise. -/
def specLabel (name : Str) : Str :=
  match specLabelTable.find? (fun r => name = r.1) with
  | some r => r.2
  | none => name

/-! ### Concrete fixtures used in closed evaluations -/

/-- A small ARM instance with a Name tag (scenario A). -/
def instA : InstRecord :=
  ⟨"i-0a".toList, "t4g.micro".toList, [("Name".toList, "web".toList)]⟩

/-- An x86 instance (scenario A). -/
def instB : InstRecord := ⟨"i-0b".toList, "m5.large".toList, []⟩

/-- A larger ARM instance (scenario A). -/
def instC : InstRecord := ⟨"i-0c".toList, "c6g.xlarge".toList, []⟩

/-- Scenario A: utilizations 2%, 40%, 60%. -/
def scenarioA : List (InstRecord × MetricResult) :=
  [(instA, .ok [2]), (instB, .ok [40]), (instC, .ok [60])]

/-- An authorization-class client error. -/
def deniedErr : ClientErr := ⟨"AccessDeniedException".toList, "denied".toList⟩

/-- A non-authorization client error. -/
def throttleErr : ClientErr := ⟨"Throttling".toList, "slow down".toList⟩

/-- The opt-in-required optimizer error. -/
def optInErr : ClientErr := ⟨"OptInRequiredException".toList, "opt in".toList⟩

/-- Scenario B cost groups: EC2 $120, S3 $30, Other $0.005. -/
def scenarioB : List (Str × ℚ) :=
  [("EC2".toList, 120), ("S3".toList, 30), ("Other".toList, 1 / 200)]

/-- An environment whose session succeeds, with scenario data and an
opt-in-required optimizer outcome. -/
def envA : Env := ⟨.ok (), .ok scenarioA, .ok scenarioB, .error optInErr, false⟩

/-- Scenario C: one instance with a denied metrics query, one healthy. -/
def scenarioC : List (InstRecord × MetricResult) :=
  [(instA, .error deniedErr), (instB, .ok [40])]

/-- An environment whose metrics query for one instance is denied. -/
def envC : Env := ⟨.ok (), .ok scenarioC, .ok scenarioB, .error optInErr, false⟩

/-- A recommendation summary with a positive mapped category, a zero
category and a positive unknown category. -/
def optSummA : OptSummary :=
  ⟨"Ec2Instance".toList,
   [("OVER_PROVISIONED".toList, 2), ("OPTIMIZED".toList, 0),
    ("SOMETHING_NEW".toList, 1)]⟩

/-- An environment with zero running instances and only an immaterial cost
entry. -/
def env9 : Env := ⟨.ok (), .ok [], .ok [("Other".toList, 1 / 200)], .ok [], false⟩

/-! ### Supporting lemmas -/

lemma splitOnChar_headD (sep : Char) (s : Str) :
    (splitOnChar sep s).headD [] = s.takeWhile (fun c => !(c = sep)) := by
  induction s with
  | nil => rfl
  | cons c rest ih =>
    by_cases h : c = sep
    · simp [splitOnChar, h]
    · simp [splitOnChar, h]
      simpa using ih

lemma strEndsWith_single (c : Char) (s : Str) :
    strEndsWith s [c] = true ↔ s.getLast? = some c := by
  induction s with
  | nil => simp [strEndsWith]
  | cons a rest ih =>
    cases rest with
    | nil => simp [strEndsWith]
    | cons b t =>
      rw [List.getLast?_cons_cons, ← ih]
      simp only [strEndsWith, List.length_cons, List.length_nil]
      have h1 : t.length + 1 + 1 - (0 + 1) = t.length + 1 := by omega
      have h2 : t.length + 1 - (0 + 1) = t.length := by omega
      simp only [h1, h2, List.drop_succ_cons]

lemma hasSub_single (c : Char) (s : Str) :
    hasSub [c] s = true ↔ c ∈ s := by
  induction s with
  | nil => simp [hasSub, matchesAt]
  | cons a rest ih => simp [hasSub, matchesAt, ih]

lemma utilLoop_events (l : List (InstRecord × MetricResult)) :
    (utilLoop l).events = l.flatMap instEvents := by
  induction l with
  | nil => rfl
  | cons p rest ih => simp [utilLoop, ih]

lemma utilLoop_lows (l : List (InstRecord × MetricResult)) :
    (utilLoop l).low_utilization = l.filterMap lowRecOf := by
  induction l with
  | nil => rfl
  | cons p rest ih =>
    simp only [utilLoop, List.filterMap_cons]
    cases h : lowRecOf p <;> simp [h, ih]

lemma utilLoop_count_sum (l : List (InstRecord × MetricResult)) :
    (utilLoop l).graviton_count + (utilLoop l).x86_count = l.length := by
  induction l with
  | nil => rfl
  | cons p rest ih =>
    simp only [utilLoop, List.length_cons]
    by_cases h : armOf p.1 <;> simp [h] <;> omega

lemma noticeEvents_isInstLine (mr : MetricResult) :
    ∀ e ∈ noticeEvents mr, isInstLine e = true := by
  intro e he
  cases mr with
  | ok d => simp [noticeEvents] at he
  | error err =>
    simp only [noticeEvents] at he
    split at he <;> simp only [List.mem_singleton] at he <;> subst he <;> rfl

lemma instEvents_isInstLine (p : InstRecord × MetricResult) :
    ∀ e ∈ instEvents p, isInstLine e = true := by
  intro e he
  rcases List.mem_append.mp he with h1 | h2
  · rcases List.mem_append.mp h1 with h3 | h4
    · exact noticeEvents_isInstLine _ e h3
    · simp only [List.mem_cons, List.not_mem_nil, or_false] at h4
      rcases h4 with h | h | h <;> subst h <;> rfl
  · rcases ha : avg_cpu p.2 with _ | a <;> simp only [ha] at h2
    · simp at h2
    · split at h2
      · simp only [List.mem_singleton] at h2; subst h2; rfl
      · simp at h2

lemma utilLoop_events_isInstLine (l : List (InstRecord × MetricResult)) :
    ∀ e ∈ (utilLoop l).events, isInstLine e = true := by
  intro e he
  rw [utilLoop_events] at he
  obtain ⟨p, _, hp⟩ := List.mem_flatMap.mp he
  exact instEvents_isInstLine p e hp

lemma noticeEvents_filter_isRow (mr : MetricResult) :
    (noticeEvents mr).filter isRow = [] := by
  cases mr with
  | ok d => rfl
  | error e =>
    simp only [noticeEvents]
    split <;> rfl

lemma instEvents_filter_isRow (p : InstRecord × MetricResult) :
    (instEvents p).filter isRow =
      [.instRow p.1.instanceId p.1.instanceType (armOf p.1)] := by
  rcases ha : avg_cpu p.2 with _ | a
  · simp [instEvents, List.filter_append, noticeEvents_filter_isRow, ha,
      List.filter, isRow]
  · by_cases h5 : a < 5 <;>
      simp [instEvents, List.filter_append, noticeEvents_filter_isRow, ha, h5,
        List.filter, isRow]

lemma utilLoop_filter_isRow (l : List (InstRecord × MetricResult)) :
    (utilLoop l).events.filter isRow =
      l.map (fun p => .instRow p.1.instanceId p.1.instanceType (armOf p.1)) := by
  induction l with
  | nil => rfl
  | cons p rest ih =>
    simp only [utilLoop, List.filter_append, instEvents_filter_isRow, ih,
      List.map_cons]
    rfl

lemma not_isInstLine_not_mem_loop (l : List (InstRecord × MetricResult))
    (e : Ev) (hf : isInstLine e = false) : e ∉ (utilLoop l).events := by
  intro he
  have ht := utilLoop_events_isInstLine l e he
  rw [hf] at ht
  exact Bool.false_ne_true ht

lemma costBanner_mem (data : Except ClientErr (List (Str × ℚ))) :
    Ev.costBanner ∈ check_cost_by_service data := by
  rcases data with e | groups
  · simp [check_cost_by_service]
  · rcases hc : collectServices groups with ⟨services, total⟩
    by_cases h : services.isEmpty <;>
      simp [check_cost_by_service, hc, h]

lemma optBanner_mem (data : Except ClientErr (List OptSummary)) :
    Ev.optBanner ∈ check_compute_optimizer data := by
  rcases data with e | s
  · simp only [check_compute_optimizer]
    split <;> simp
  · by_cases h : s.isEmpty <;> simp [check_compute_optimizer, h]

/-- Claim C1: the derived family is the substring of the instance type
before the first '.', the instance is classified ARM (Graviton) iff the
family ends with 'g' or 'g' occurs in the family after its first
character, and the classification is total, returning `false` on the
empty family and on the one-character family "t". -/
theorem c1_family_and_arm_classification (t : Str) :
    familyOf t = t.takeWhile (fun c => !(c = '.')) ∧
    (is_graviton (familyOf t) = true ↔
      (familyOf t).getLast? = some 'g' ∨ 'g' ∈ (familyOf t).drop 1) ∧
    is_graviton [] = false ∧ is_graviton ['t'] = false := by
  refine ⟨splitOnChar_headD '.' t, ?_, by decide, by decide⟩
  have hg : "g".toList = ['g'] := rfl
  simp [is_graviton, hg, strEndsWith_single, hasSub_single]

/-- Claim C2: for a successful 7-day utilization query the aggregate is
unavailable exactly when the sample list is empty and otherwise equals the
arithmetic mean of the samples; across the instance loop, the
low-utilization list contains exactly the instances whose aggregate is
available and strictly below 5%. -/
theorem c2_mean_aggregate_and_low_flag
    (l : List (InstRecord × MetricResult)) (dps : List ℚ) :
    (avg_cpu (.ok dps) = none ↔ dps = []) ∧
    (dps ≠ [] → avg_cpu (.ok dps) = some (dps.sum / (dps.length : ℚ))) ∧
    (utilLoop l).low_utilization = l.filterMap lowRecOf ∧
    (∀ p : InstRecord × MetricResult,
        (lowRecOf p).isSome = true ↔ ∃ a, avg_cpu p.2 = some a ∧ a < 5) := by
  refine ⟨?_, ?_, utilLoop_lows l, ?_⟩
  · by_cases h : dps = [] <;> simp [avg_cpu, h]
  · intro h
    simp [avg_cpu, h]
  · intro p
    rcases ha : avg_cpu p.2 with _ | a
    · simp [lowRecOf, ha]
    · by_cases h5 : a < 5 <;> simp [lowRecOf, ha, h5]

/-- Witness for C2: a two-sample query averages to 3 and a 2% instance is
flagged. -/
theorem c2_witness :
    avg_cpu (.ok [2, 4]) = some 3 ∧ (lowRecOf (instA, .ok [2])).isSome = true := by
  obtain ⟨-, h2, -, h4⟩ :=
    c2_mean_aggregate_and_low_flag [(instA, .ok [2])] [2, 4]
  constructor
  · rw [h2 (by simp)]
    norm_num
  · rw [h4]
    exact ⟨2, by norm_num [avg_cpu], by norm_num⟩

/-- Claim C10: the utilization phase tallies every processed instance in
exactly one of the two architecture buckets, so the ARM-percentage
denominator `graviton_count + x86_count` is the running-instance count. -/
theorem c10_arch_tally_partition (insts : List (InstRecord × MetricResult)) :
    (check_ec2_utilization (.ok insts)).graviton_count +
      (check_ec2_utilization (.ok insts)).x86_count = insts.length := by
  cases insts with
  | nil => rfl
  | cons p rest =>
    simpa [check_ec2_utilization] using utilLoop_count_sum (p :: rest)

/-- Claim C4: an authorization-class metrics failure (code
AccessDeniedException or AccessDenied) emits the specific permission
notice, any other client error emits the generic failure notice; in both
cases the aggregate is unavailable while the instance's own row, every
other instance's row, and the later cost and recommendation sections are
still rendered. -/
theorem c4_metrics_failure_degradation
    (l : List (InstRecord × MetricResult)) (e : ClientErr) (inst : InstRecord)
    (env : Env) :
    (e.code = "AccessDeniedException".toList ∨ e.code = "AccessDenied".toList →
      noticeEvents (.error e) = [.cwPermissionNotice]) ∧
    (¬(e.code = "AccessDeniedException".toList ∨ e.code = "AccessDenied".toList) →
      noticeEvents (.error e) = [.cwFailNotice e.code]) ∧
    avg_cpu (.error e) = none ∧
    instEvents (inst, .error e) =
      noticeEvents (.error e) ++
        [.instRow inst.instanceId inst.instanceType (armOf inst),
         .instName (nameTagOf inst.tags), .instCpu none] ∧
    (utilLoop l).events.filter isRow =
      l.map (fun p => .instRow p.1.instanceId p.1.instanceType (armOf p.1)) ∧
    (env.sessionResult = .ok () → env.skipCost = false →
      Ev.costBanner ∈ (runMain env).1 ∧ Ev.optBanner ∈ (runMain env).1) := by
  refine ⟨fun h => ?_, fun h => ?_, rfl, ?_, utilLoop_filter_isRow l,
    fun hs hc => ?_⟩
  · simp only [noticeEvents]
    rw [if_pos h]
  · simp only [noticeEvents]
    rw [if_neg h]
  · show noticeEvents (.error e) ++ _ ++ _ = _
    rw [List.append_assoc]
    congr 1
  · simp only [runMain, hs, hc, if_false]
    have h1 := costBanner_mem env.costData
    have h2 := optBanner_mem env.optimizerData
    constructor
    · simp [List.mem_append, h1]
    · simp [List.mem_append, h2]

/-- Witness for C4: concrete denied and throttled metric failures, inside
a run whose cost and optimizer sections still render. -/
theorem c4_witness :
    noticeEvents (.error deniedErr) = [.cwPermissionNotice] ∧
    noticeEvents (.error throttleErr) = [.cwFailNotice throttleErr.code] ∧
    Ev.costBanner ∈ (runMain envC).1 ∧ Ev.optBanner ∈ (runMain envC).1 := by
  obtain ⟨h1, -, -, -, -, h6⟩ :=
    c4_metrics_failure_degradation scenarioC deniedErr instA envC
  obtain ⟨-, h2, -, -, -, -⟩ :=
    c4_metrics_failure_degradation scenarioC throttleErr instA envC
  have hc := h6 rfl rfl
  exact ⟨h1 (Or.inl rfl), h2 (by decide), hc.1, hc.2⟩

/-- Claim C7: with at least one running instance, the reported ARM
percentage equals graviton_count / (graviton_count + x86_count) * 100 and
the x86-to-Graviton migration suggestion is emitted iff that percentage is
strictly below 50. -/
theorem c7_arm_ratio_and_migration_suggestion
    (l : List (InstRecord × MetricResult)) (h : l ≠ []) :
    Ev.ratioLine (((check_ec2_utilization (.ok l)).graviton_count : ℚ) /
          (((check_ec2_utilization (.ok l)).graviton_count : ℚ) +
            ((check_ec2_utilization (.ok l)).x86_count : ℚ)) * 100) ∈
        (check_ec2_utilization (.ok l)).events ∧
    (Ev.migrateToArm ∈ (check_ec2_utilization (.ok l)).events ↔
      ((check_ec2_utilization (.ok l)).graviton_count : ℚ) /
          (((check_ec2_utilization (.ok l)).graviton_count : ℚ) +
            ((check_ec2_utilization (.ok l)).x86_count : ℚ)) * 100 < 50) := by
  obtain ⟨p, rest, rfl⟩ : ∃ p rest, l = p :: rest := by
    cases l with
    | nil => exact absurd rfl h
    | cons p rest => exact ⟨p, rest, rfl⟩
  have hg : (check_ec2_utilization (.ok (p :: rest))).graviton_count =
      (utilLoop (p :: rest)).graviton_count := by
    simp [check_ec2_utilization]
  have hx : (check_ec2_utilization (.ok (p :: rest))).x86_count =
      (utilLoop (p :: rest)).x86_count := by
    simp [check_ec2_utilization]
  have hev : (check_ec2_utilization (.ok (p :: rest))).events =
      [.utilBanner, .instanceCountLine (p :: rest).length] ++
        (utilLoop (p :: rest)).events ++
        summaryEvents (utilLoop (p :: rest)).graviton_count
          (utilLoop (p :: rest)).x86_count
          (utilLoop (p :: rest)).low_utilization := by
    simp [check_ec2_utilization]
  rw [hg, hx, hev]
  have hpos : 0 < (utilLoop (p :: rest)).graviton_count +
      (utilLoop (p :: rest)).x86_count := by
    rw [utilLoop_count_sum]
    simp
  have hnr : Ev.ratioLine (((utilLoop (p :: rest)).graviton_count : ℚ) /
        (((utilLoop (p :: rest)).graviton_count : ℚ) +
          ((utilLoop (p :: rest)).x86_count : ℚ)) * 100) ∉
      (utilLoop (p :: rest)).events :=
    not_isInstLine_not_mem_loop _ _ rfl
  have hnm : Ev.migrateToArm ∉ (utilLoop (p :: rest)).events :=
    not_isInstLine_not_mem_loop _ _ rfl
  by_cases h50 : ((utilLoop (p :: rest)).graviton_count : ℚ) /
      (((utilLoop (p :: rest)).graviton_count : ℚ) +
        ((utilLoop (p :: rest)).x86_count : ℚ)) * 100 < 50 <;>
    by_cases hE : (utilLoop (p :: rest)).low_utilization.isEmpty <;>
    simp [summaryEvents, hpos, h50, hE, hnr, hnm]

/-- Witness for C7 at scenario A (two ARM, one x86): the 200/3 % ratio
line is rendered and no migration suggestion is emitted. -/
theorem c7_witness :
    Ev.ratioLine (((check_ec2_utilization (.ok scenarioA)).graviton_count : ℚ) /
          (((check_ec2_utilization (.ok scenarioA)).graviton_count : ℚ) +
            ((check_ec2_utilization (.ok scenarioA)).x86_count : ℚ)) * 100) ∈
        (check_ec2_utilization (.ok scenarioA)).events ∧
    Ev.migrateToArm ∉ (check_ec2_utilization (.ok scenarioA)).events := by
  obtain ⟨h1, h2⟩ := c7_arm_ratio_and_migration_suggestion scenarioA
    (by simp [scenarioA])
  refine ⟨h1, fun hm => ?_⟩
  have hlt := h2.mp hm
  have hgc : (check_ec2_utilization (.ok scenarioA)).graviton_count = 2 := by
    decide
  have hxc : (check_ec2_utilization (.ok scenarioA)).x86_count = 1 := by
    decide
  rw [hgc, hxc] at hlt
  norm_num at hlt

/-- Claim C5: the process exits non-zero exactly when session acquisition
fails; with a session, the run always reaches the checklist and footer
with success status, and an OptInRequiredException optimizer failure
yields the not-enabled notice while the run continues. -/
theorem c5_exit_behavior (env : Env) :
    ((runMain env).2 = 0 ↔ env.sessionResult = .ok ()) ∧
    (env.sessionResult = .ok () →
      Ev.checklistSec ∈ (runMain env).1 ∧ Ev.footer ∈ (runMain env).1) ∧
    (∀ e : ClientErr, env.sessionResult = .ok () →
      env.optimizerData = .error e →
      e.code = "OptInRequiredException".toList →
      Ev.optNotEnabled ∈ (runMain env).1 ∧ (runMain env).2 = 0) := by
  refine ⟨?_, fun hs => ?_, fun e hs ho hc => ?_⟩
  · rcases hs : env.sessionResult with se | u
    · simp [runMain, hs]
    · cases u
      simp [runMain, hs]
  · simp [runMain, hs, List.mem_append]
  · have hopt : check_compute_optimizer env.optimizerData =
        [.optBanner, .optNotEnabled] := by
      rw [ho]
      simp only [check_compute_optimizer]
      rw [if_pos hc]
    constructor
    · simp [runMain, hs, hopt, List.mem_append]
    · simp [runMain, hs]

/-- Witness for C5: a successful session with an opt-in-required optimizer
error still completes through checklist and footer with exit status 0. -/
theorem c5_witness :
    (runMain envA).2 = 0 ∧ Ev.checklistSec ∈ (runMain envA).1 ∧
    Ev.footer ∈ (runMain envA).1 ∧ Ev.optNotEnabled ∈ (runMain envA).1 := by
  obtain ⟨h1, h2, h3⟩ := c5_exit_behavior envA
  have hck := h2 rfl
  have hop := h3 optInErr rfl rfl rfl
  exact ⟨hop.2, hck.1, hck.2, hop.1⟩

lemma collectServices_eq (groups : List (Str × ℚ)) :
    collectServices groups =
      (groups.filter (fun p => 1 / 100 < p.2),
       ((groups.filter (fun p => 1 / 100 < p.2)).map Prod.snd).sum) := by
  induction groups with
  | nil => rfl
  | cons p rest ih =>
    rcases p with ⟨n, c⟩
    simp only [collectServices, ih, List.filter_cons]
    by_cases h : (1 : ℚ) / 100 < c
    · rw [if_pos h, if_pos (decide_eq_true h)]
      simp [add_comm]
    · rw [if_neg h, if_neg (by simpa using h)]

lemma mem_services_cost_gt {groups : List (Str × ℚ)} {q : Str × ℚ}
    (hq : q ∈ (collectServices groups).1) : 1 / 100 < q.2 := by
  rw [collectServices_eq] at hq
  exact of_decide_eq_true (List.mem_filter.mp hq).2

lemma orderedInsert_filter_cost (p : Str × ℚ) (l : List (Str × ℚ)) (c : ℚ) :
    (List.orderedInsert (fun a b => b.2 ≤ a.2) p l).filter (fun q => q.2 = c) =
      (if p.2 = c then [p] else []) ++ l.filter (fun q => q.2 = c) := by
  induction l with
  | nil =>
    by_cases hp : p.2 = c <;> simp [List.orderedInsert, List.filter_cons, hp]
  | cons q rest ih =>
    simp only [List.orderedInsert]
    by_cases hle : q.2 ≤ p.2
    · rw [if_pos hle]
      by_cases hp : p.2 = c <;> by_cases hq : q.2 = c <;>
        simp [List.filter_cons, hp, hq]
    · rw [if_neg hle]
      by_cases hp : p.2 = c
      · by_cases hq : q.2 = c
        · exact absurd (le_of_eq (hq.trans hp.symm)) hle
        · simp [List.filter_cons, hp, hq, ih]
      · by_cases hq : q.2 = c <;> simp [List.filter_cons, hp, hq, ih]

lemma sortByCostDesc_stable (l : List (Str × ℚ)) (c : ℚ) :
    (sortByCostDesc l).filter (fun q => q.2 = c) =
      l.filter (fun q => q.2 = c) := by
  induction l with
  | nil => rfl
  | cons p rest ih =>
    simp only [sortByCostDesc, List.insertionSort] at ih ⊢
    rw [orderedInsert_filter_cost, ih, List.filter_cons]
    by_cases hp : p.2 = c <;> simp [hp]

lemma sum_map_pct (l : List (Str × ℚ)) (t : ℚ) :
    (l.map (fun p => p.2 / t * 100)).sum = (l.map Prod.snd).sum / t * 100 := by
  induction l with
  | nil => simp
  | cons p rest ih =>
    simp only [List.map_cons, List.sum_cons, ih]
    ring

lemma sum_take_le (l : List ℚ) (n : ℕ) (h : ∀ x ∈ l, 0 ≤ x) :
    (l.take n).sum ≤ l.sum := by
  have h1 := List.sum_take_add_sum_drop l n
  have h2 : 0 ≤ (l.drop n).sum :=
    List.sum_nonneg fun x hx => h x (List.mem_of_mem_drop hx)
  linarith

lemma check_cost_ok_eq (groups : List (Str × ℚ))
    (hne : (collectServices groups).1 ≠ []) :
    check_cost_by_service (.ok groups) =
      [.costBanner, .totalLine (collectServices groups).2] ++
        ((sortByCostDesc (collectServices groups).1).take 10).map
          (costEntryEv (collectServices groups).2) ++
        ((sortByCostDesc (collectServices groups).1).take 5).filterMap
          (fun p => suggestionFor p.1) := by
  rcases hcs : collectServices groups with ⟨sv, tc⟩
  rw [hcs] at hne
  have hf : sv.isEmpty = false := by
    cases sv with
    | nil => exact absurd rfl hne
    | cons a t => rfl
  simp only [check_cost_by_service, hcs, hf]
  rfl

lemma collect_total_pos (groups : List (Str × ℚ))
    (hne : (collectServices groups).1 ≠ []) :
    0 < (collectServices groups).2 := by
  have h1 : (collectServices groups).1 =
      groups.filter (fun p => 1 / 100 < p.2) := by rw [collectServices_eq]
  have h2 : (collectServices groups).2 =
      ((collectServices groups).1.map Prod.snd).sum := by
    rw [collectServices_eq]
  rw [h2]
  apply List.sum_pos
  · intro x hx
    obtain ⟨q, hq, rfl⟩ := List.mem_map.mp hx
    have := mem_services_cost_gt hq
    linarith
  · simpa using hne

/-- Claim C3: exactly the services with cost strictly above $0.01 are
recorded and the total is the sum of the recorded costs; the rendered
entries are the stable cost-descending ordering of the recorded entries
(ties keep query order) capped at 10; each rendered entry's percentage is
cost/total*100 and its bar length floor(cost/total*30); the rendered
percentages sum to at most 100. -/
theorem c3_cost_recording_ranking_shares (groups : List (Str × ℚ)) :
    (collectServices groups).1 = groups.filter (fun p => 1 / 100 < p.2) ∧
    (collectServices groups).2 = ((collectServices groups).1.map Prod.snd).sum ∧
    List.Pairwise (fun a b : Str × ℚ => b.2 ≤ a.2)
      (sortByCostDesc (collectServices groups).1) ∧
    (∀ c : ℚ,
      (sortByCostDesc (collectServices groups).1).filter (fun q => q.2 = c) =
        (collectServices groups).1.filter (fun q => q.2 = c)) ∧
    ((collectServices groups).1 ≠ [] →
      check_cost_by_service (.ok groups) =
        [.costBanner, .totalLine (collectServices groups).2] ++
          ((sortByCostDesc (collectServices groups).1).take 10).map
            (costEntryEv (collectServices groups).2) ++
          ((sortByCostDesc (collectServices groups).1).take 5).filterMap
            (fun p => suggestionFor p.1)) ∧
    ((sortByCostDesc (collectServices groups).1).take 10).length ≤ 10 ∧
    (∀ p ∈ (sortByCostDesc (collectServices groups).1).take 10,
      costEntryEv (collectServices groups).2 p =
        .costEntry p.1 p.2 (p.2 / (collectServices groups).2 * 100)
          ⌊p.2 / (collectServices groups).2 * 30⌋) ∧
    (((sortByCostDesc (collectServices groups).1).take 10).map
        (fun p => p.2 / (collectServices groups).2 * 100)).sum ≤ 100 := by
  have h1 : (collectServices groups).1 =
      groups.filter (fun p => 1 / 100 < p.2) := by rw [collectServices_eq]
  have h2 : (collectServices groups).2 =
      ((collectServices groups).1.map Prod.snd).sum := by
    rw [collectServices_eq]
  have hperm : (sortByCostDesc (collectServices groups).1).Perm
      (collectServices groups).1 := List.perm_insertionSort _ _
  refine ⟨h1, h2, List.sorted_insertionSort _ _,
    fun c => sortByCostDesc_stable _ c, check_cost_ok_eq groups, ?_, ?_, ?_⟩
  · rw [List.length_take]
    exact inf_le_left
  · intro p hp
    have hmem : p ∈ (collectServices groups).1 :=
      hperm.mem_iff.mp (List.mem_of_mem_take hp)
    have hpos : 0 < (collectServices groups).2 :=
      collect_total_pos groups (List.ne_nil_of_mem hmem)
    simp only [costEntryEv, if_pos hpos]
  · rcases eq_or_ne (collectServices groups).1 [] with hsv | hsv
    · rw [hsv]
      norm_num [sortByCostDesc, List.insertionSort]
    · have hpos : 0 < (collectServices groups).2 := collect_total_pos groups hsv
      rw [sum_map_pct]
      have hnn : ∀ x ∈ (sortByCostDesc (collectServices groups).1).map Prod.snd,
          0 ≤ x := by
        intro x hx
        obtain ⟨q, hq, rfl⟩ := List.mem_map.mp hx
        have := mem_services_cost_gt (hperm.mem_iff.mp hq)
        linarith
      have htake : (((sortByCostDesc (collectServices groups).1).take 10).map
          Prod.snd).sum ≤
          (((sortByCostDesc (collectServices groups).1)).map Prod.snd).sum := by
        rw [List.map_take]
        exact sum_take_le _ 10 hnn
      have hsum_eq : (((sortByCostDesc (collectServices groups).1)).map
          Prod.snd).sum = (collectServices groups).2 := by
        rw [h2]
        exact (hperm.map Prod.snd).sum_eq
      rw [hsum_eq] at htake
      rw [div_mul_eq_mul_div, div_le_iff₀ hpos]
      nlinarith [htake, hpos]

/-- Witness for C3 at scenario B: the $0.005 entry is excluded, total is
$150, and the EC2 entry renders with 80% and a 24-character bar. -/
theorem c3_witness :
    (collectServices scenarioB).1 = [("EC2".toList, 120), ("S3".toList, 30)] ∧
    (collectServices scenarioB).2 = 150 ∧
    costEntryEv (collectServices scenarioB).2 ("EC2".toList, 120) =
      .costEntry "EC2".toList 120 80 24 := by
  obtain ⟨-, -, -, -, -, -, a7, -⟩ := c3_cost_recording_ranking_shares scenarioB
  have hsv : (collectServices scenarioB).1 =
      [("EC2".toList, 120), ("S3".toList, 30)] := by
    norm_num [scenarioB, collectServices]
  have ht : (collectServices scenarioB).2 = 150 := by
    norm_num [scenarioB, collectServices]
  refine ⟨hsv, ht, ?_⟩
  have hp : ("EC2".toList, (120 : ℚ)) ∈
      (sortByCostDesc (collectServices scenarioB).1).take 10 := by
    rw [hsv]
    decide
  have h := a7 _ hp
  rw [h, ht]
  norm_num

lemma suggestionFor_eq_spec (name : Str) :
    suggestionFor name = specSuggestion name := by
  unfold suggestionFor specSuggestion ruleTable
  by_cases h1 : hasSub "EC2".toList name = true
  · rw [if_pos h1, @List.find?_cons_of_pos _ (fun r => hasSub r.1 name) ("EC2".toList, Ev.suggestEC2) _ h1]
    rfl
  · rw [if_neg h1, List.find?_cons_of_neg _ (by simpa using h1)]
    by_cases h2 : hasSub "RDS".toList name = true
    · rw [if_pos h2, @List.find?_cons_of_pos _ (fun r => hasSub r.1 name) ("RDS".toList, Ev.suggestRDS) _ h2]
      rfl
    · rw [if_neg h2, List.find?_cons_of_neg _ (by simpa using h2)]
      by_cases h3 : hasSub "S3".toList name = true
      · rw [if_pos h3, @List.find?_cons_of_pos _ (fun r => hasSub r.1 name) ("S3".toList, Ev.suggestS3) _ h3]
        rfl
      · rw [if_neg h3, List.find?_cons_of_neg _ (by simpa using h3)]
        by_cases h4 : hasSub "Lambda".toList name = true
        · rw [if_pos h4, @List.find?_cons_of_pos _ (fun r => hasSub r.1 name) ("Lambda".toList, Ev.suggestLambda) _ h4]
          rfl
        · rw [if_neg h4, List.find?_cons_of_neg _ (by simpa using h4)]
          by_cases h5 : hasSub "DynamoDB".toList name = true
          · rw [if_pos h5, @List.find?_cons_of_pos _ (fun r => hasSub r.1 name) ("DynamoDB".toList, Ev.suggestDynamoDB) _ h5]
            rfl
          · rw [if_neg h5, List.find?_cons_of_neg _ (by simpa using h5),
              List.find?_nil]
            rfl

lemma suggestionFor_none_iff (name : Str) :
    suggestionFor name = none ↔ ∀ r ∈ ruleTable, hasSub r.1 name = false := by
  rw [suggestionFor_eq_spec, specSuggestion]
  constructor
  · intro h r hr
    cases hf : List.find? (fun r => hasSub r.1 name) ruleTable with
    | some q =>
      rw [hf] at h
      exact Option.noConfusion h
    | none =>
      have hn := List.find?_eq_none.mp hf r hr
      simpa using hn
  · intro h
    cases hf : List.find? (fun r => hasSub r.1 name) ruleTable with
    | none => rfl
    | some q =>
      have h1 := List.find?_some hf
      have h2 := h q (List.mem_of_find?_eq_some hf)
      rw [h2] at h1
      exact Bool.noConfusion h1

lemma suggestionFor_isSuggest (name : Str) (e : Ev)
    (h : suggestionFor name = some e) : isSuggestEv e = true := by
  simp only [suggestionFor] at h
  split_ifs at h
  all_goals first
    | exact Option.noConfusion h
    | (injection h with h2; subst h2; rfl)

lemma filter_isSuggest_filterMap (l : List (Str × ℚ)) :
    (l.filterMap (fun p => suggestionFor p.1)).filter isSuggestEv =
      l.filterMap (fun p => suggestionFor p.1) := by
  rw [List.filter_eq_self]
  intro e he
  obtain ⟨p, hp, hs⟩ := List.mem_filterMap.mp he
  exact suggestionFor_isSuggest _ _ hs

/-- Claim C6: the suggestion policy is the first matching rule of the
fixed ordered table (EC2, RDS, S3, Lambda, DynamoDB) by case-sensitive
substring match — at most one suggestion per scanned service, none when no
substring matches — and exactly the top 5 cost entries are scanned. -/
theorem c6_top5_suggestion_scan (groups : List (Str × ℚ)) (name : Str) :
    suggestionFor name = specSuggestion name ∧
    (suggestionFor name = none ↔ ∀ r ∈ ruleTable, hasSub r.1 name = false) ∧
    ((collectServices groups).1 ≠ [] →
      (check_cost_by_service (.ok groups)).filter isSuggestEv =
        ((sortByCostDesc (collectServices groups).1).take 5).filterMap
          (fun p => suggestionFor p.1)) := by
  refine ⟨suggestionFor_eq_spec name, suggestionFor_none_iff name, fun hne => ?_⟩
  rw [check_cost_ok_eq groups hne]
  simp only [List.filter_append]
  rw [filter_isSuggest_filterMap]
  have hmap : (((sortByCostDesc (collectServices groups).1).take 10).map
      (costEntryEv (collectServices groups).2)).filter isSuggestEv = [] := by
    rw [List.filter_eq_nil_iff]
    intro a ha
    obtain ⟨p, hp, rfl⟩ := List.mem_map.mp ha
    simp [costEntryEv, isSuggestEv]
  rw [hmap]
  simp [isSuggestEv]

/-- Witness for C6 at scenario B: one EC2 and one S3 suggestion, nothing
for the immaterial entry. -/
theorem c6_witness :
    (check_cost_by_service (.ok scenarioB)).filter isSuggestEv =
      [.suggestEC2, .suggestS3] ∧
    suggestionFor "Other".toList = none := by
  obtain ⟨-, hnone, h3⟩ := c6_top5_suggestion_scan scenarioB "Other".toList
  have hsv : (collectServices scenarioB).1 =
      [("EC2".toList, 120), ("S3".toList, 30)] := by
    norm_num [scenarioB, collectServices]
  refine ⟨?_, hnone.mpr (by decide)⟩
  have hne : (collectServices scenarioB).1 ≠ [] := by
    rw [hsv]
    decide
  rw [h3 hne, hsv]
  decide

lemma filterMap_pos_filter (G : (Str × ℚ) → Ev) (l : List (Str × ℚ)) :
    l.filterMap (fun f => if f.2 > 0 then some (G f) else none) =
      (l.filter (fun f => 0 < f.2)).map G := by
  induction l with
  | nil => rfl
  | cons p rest ih =>
    by_cases h : (0 : ℚ) < p.2 <;>
      simp [List.filterMap_cons, List.filter_cons, h, ih]

lemma findingLabel_eq_spec (name : Str) : findingLabel name = specLabel name := by
  unfold findingLabel specLabel specLabelTable
  by_cases h1 : name = "OVER_PROVISIONED".toList
  · rw [if_pos h1, List.find?_cons_of_pos _ (by exact decide_eq_true h1)]
  · rw [if_neg h1, List.find?_cons_of_neg _ (by simpa using h1)]
    by_cases h2 : name = "UNDER_PROVISIONED".toList
    · rw [if_pos h2, List.find?_cons_of_pos _ (by exact decide_eq_true h2)]
    · rw [if_neg h2, List.find?_cons_of_neg _ (by simpa using h2)]
      by_cases h3 : name = "OPTIMIZED".toList
      · rw [if_pos h3, List.find?_cons_of_pos _ (by exact decide_eq_true h3)]
      · rw [if_neg h3, List.find?_cons_of_neg _ (by simpa using h3)]
        by_cases h4 : name = "NOT_OPTIMIZED".toList
        · rw [if_pos h4, List.find?_cons_of_pos _ (by exact decide_eq_true h4)]
        · rw [if_neg h4, List.find?_cons_of_neg _ (by simpa using h4),
            List.find?_nil]

/-- Claim C8: each finding category with a positive count is rendered
through the fixed category→label mapping, a category outside the mapping
is rendered verbatim as its own label, and a zero-count category produces
no output line. -/
theorem c8_optimizer_category_rendering (summaries : List OptSummary)
    (h : summaries ≠ []) :
    check_compute_optimizer (.ok summaries) =
      .optBanner :: summaries.flatMap (fun s =>
        .optResourceType s.resourceType ::
          (s.summaries.filter (fun f => 0 < f.2)).map
            (fun f => .optFinding (findingLabel f.1) f.2)) ∧
    (∀ name : Str, findingLabel name = specLabel name) ∧
    (∀ name : Str,
      name ∉ ["OVER_PROVISIONED".toList, "UNDER_PROVISIONED".toList,
        "OPTIMIZED".toList, "NOT_OPTIMIZED".toList] →
      findingLabel name = name) := by
  refine ⟨?_, findingLabel_eq_spec, fun name hn => ?_⟩
  · have hne : summaries.isEmpty = false := by
      cases summaries with
      | nil => exact absurd rfl h
      | cons a t => rfl
    have hfun : optSummaryEvents = fun s =>
        Ev.optResourceType s.resourceType ::
          (s.summaries.filter (fun f => 0 < f.2)).map
            (fun f => Ev.optFinding (findingLabel f.1) f.2) := by
      funext s
      unfold optSummaryEvents
      rw [filterMap_pos_filter]
    simp only [check_compute_optimizer, hne, hfun]
    rfl
  · simp only [List.mem_cons, List.not_mem_nil, or_false, not_or] at hn
    obtain ⟨n1, n2, n3, n4⟩ := hn
    unfold findingLabel
    rw [if_neg n1, if_neg n2, if_neg n3, if_neg n4]

/-- Witness for C8: one summary with a positive mapped category, a
suppressed zero category and a verbatim unknown category. -/
theorem c8_witness :
    check_compute_optimizer (.ok [optSummA]) =
      [.optBanner, .optResourceType "Ec2Instance".toList,
       .optFinding "과도 프로비저닝 (줄일 수 있음)".toList 2,
       .optFinding "SOMETHING_NEW".toList 1] ∧
    findingLabel "SOMETHING_NEW".toList = "SOMETHING_NEW".toList := by
  obtain ⟨h1, -, h3⟩ := c8_optimizer_category_rendering [optSummA] (by decide)
  refine ⟨?_, h3 _ (by decide)⟩
  rw [h1]
  decide

/-- Claim C9: zero running instances yields the explicit no-instances line
and no per-instance rows; zero material cost entries yields the explicit
no-cost line; both outcomes are information rather than errors and the run
continues to the remaining sections with success status. -/
theorem c9_empty_inputs_informational (groups : List (Str × ℚ)) (env : Env) :
    (check_ec2_utilization (.ok [])).events = [.utilBanner, .noInstances] ∧
    (check_ec2_utilization (.ok [])).events.filter isRow = [] ∧
    ((collectServices groups).1 = [] →
      check_cost_by_service (.ok groups) = [.costBanner, .noCost]) ∧
    (env.sessionResult = .ok () →
      Ev.optBanner ∈ (runMain env).1 ∧ Ev.checklistSec ∈ (runMain env).1 ∧
      Ev.footer ∈ (runMain env).1 ∧ (runMain env).2 = 0) := by
  refine ⟨rfl, rfl, fun hc => ?_, fun hs => ?_⟩
  · rcases hcs : collectServices groups with ⟨sv, tc⟩
    rw [hcs] at hc
    have hsv : sv = [] := hc
    subst hsv
    simp [check_cost_by_service, hcs]
  · simp only [runMain, hs]
    have hop := optBanner_mem env.optimizerData
    refine ⟨?_, ?_, ?_, trivial⟩
    · simp [List.mem_append, hop]
    · simp [List.mem_append]
    · simp [List.mem_append]

/-- Witness for C9: an immaterial-only cost list yields the no-cost line,
and the zero-instance environment completes with success status. -/
theorem c9_witness :
    check_cost_by_service (.ok [("Other".toList, 1 / 200)]) =
      [.costBanner, .noCost] ∧
    Ev.footer ∈ (runMain env9).1 ∧ (runMain env9).2 = 0 := by
  obtain ⟨-, -, h3, h4⟩ :=
    c9_empty_inputs_informational [("Other".toList, 1 / 200)] env9
  have hc : (collectServices [("Other".toList, (1 : ℚ) / 200)]).1 = [] := by
    norm_num [collectServices]
  have h := h4 rfl
  exact ⟨h3 hc, h.2.2.1, h.2.2.2⟩

end Carbon
